import Mathlib

/-!
Verification of the htop TraceScreen core (src/TraceScreen.c): session
lifecycle, the per-tick output multiplexer, the line reassembler and the
key handler, shallowly embedded as pure Lean functions over an explicit
screen state.

Bytes are modelled as natural numbers; byte 10 is the line terminator
and byte 0 the C string terminator.  The display (the InfoScreen panel
owned by the viewer shell) is a list of lines, each a list of bytes.
Operating-system effects of teardown and launch are recorded as explicit
action traces.
-/

namespace TraceScreen

abbrev Byte := Nat

/-- Observable operating-system actions performed by teardown and launch:
sending SIGTERM to a pid, the blocking waitpid reap, closing the read or
write end of the pipe, the fclose of the stream handle, and the fork of
the tracer child. -/
inductive Action where
  | spawn : Int → Action
  | kill : Int → Action
  | wait : Int → Action
  | closeRead : Action
  | closeWrite : Action
  | fclose : Action
deriving DecidableEq

/-- The screen state: the fields of struct TraceScreen_ that the core
mutates (tracing, follow, contLine, strace_alive, child, and whether the
strace FILE handle is non-NULL), together with the display panel content
and its selection index, which the core only appends to or extends. -/
structure TS where
  tracing : Bool
  follow : Bool
  contLine : Bool
  strace_alive : Bool
  strace : Bool
  child : Int
  display : List (List Byte)
  selected : Nat
deriving DecidableEq

/-- TraceScreen_new: xCalloc zeroes every field, then tracing is set true. -/
def TraceScreen_new : TS :=
  { tracing := true, follow := false, contLine := false, strace_alive := false,
    strace := false, child := 0, display := [], selected := 0 }

/-- C string semantics: reading a segment out of the buffer stops at the
first NUL byte. -/
def cstr (l : List Byte) : List Byte := l.takeWhile (fun b => b ≠ 0)

/-- Modelled from the spec: InfoScreen_addLine (declared in InfoScreen.h,
not part of src/) appends a new entry to the display sequence. -/
def InfoScreen_addLine (d : List (List Byte)) (s : List Byte) : List (List Byte) :=
  d ++ [s]

/-- Modelled from the spec: InfoScreen_appendLine (declared in
InfoScreen.h, not part of src/) extends the last display entry with more
text rather than adding a new entry. -/
def InfoScreen_appendLine (d : List (List Byte)) (s : List Byte) : List (List Byte) :=
  d.dropLast ++ [(d.getLast?.getD []) ++ s]

/-- The emit step of the reassembly loop body (TraceScreen.c lines
160-169): a completed segment extends the last entry when contLine is
set, otherwise it starts a new entry. -/
def emit (c : Bool) (d : List (List Byte)) (seg : List Byte) : List (List Byte) :=
  if c then InfoScreen_appendLine d seg else InfoScreen_addLine d seg

/-- The scan loop of TraceScreen_updateTrace (lines 157-175): walk the
buffer byte by byte accumulating the current segment; at each newline
emit the segment (clearing contLine); a nonempty trailing segment is
added as a NEW entry unconditionally and contLine is set. -/
def procLoop : List Byte → List Byte → Bool → List (List Byte) → Bool × List (List Byte)
  | [], cur, c, d =>
    if cur = [] then (c, d) else (true, InfoScreen_addLine d (cstr cur))
  | b :: bs, cur, c, d =>
    if b = 10 then procLoop bs [] false (emit c d (cstr cur))
    else procLoop bs (cur ++ [b]) c d

/-- One chunk of freshly read bytes fed through the reassembly loop,
acting on the contLine flag and the display. -/
def processChunk (chunk : List Byte) (c : Bool) (d : List (List Byte)) :
    Bool × List (List Byte) :=
  procLoop chunk [] c d

/-- TraceScreen_updateTrace (lines 135-183), with the read it performs
made explicit.  avail is what fread would deliver this tick; when
strace_alive is false the strace descriptor is not placed in the select
set, FD_ISSET is false and fread is never called, so nothing is read.
exited models waitpid(child, NULL, WNOHANG) reporting a non-zero result.
Returns the new state together with the bytes actually consumed from the
channel. -/
def updateTraceRead (s : TS) (avail : List Byte) (exited : Bool) : TS × List Byte :=
  let nread := if s.strace_alive = true then avail else []
  if nread ≠ [] ∧ s.tracing = true then
    let r := processChunk nread s.contLine s.display
    ({ s with contLine := r.1, display := r.2,
              selected := if s.follow = true then r.2.length - 1 else s.selected },
     nread)
  else
    (if s.strace_alive = true ∧ exited = true then { s with strace_alive := false } else s,
     nread)

/-- The state transition of one multiplexer tick. -/
def TraceScreen_updateTrace (s : TS) (avail : List Byte) (exited : Bool) : TS :=
  (updateTraceRead s avail exited).1

/-- Curses function-key codes: KEY_F(n) = 0o410 + n. -/
def KEY_F (n : Nat) : Nat := 264 + n

/-- TraceScreen_onKey (lines 185-205): f/F8 toggles follow and, when
follow becomes true, moves the selection to the last entry; t/F9 toggles
tracing; any other key clears follow and reports the event unhandled. -/
def TraceScreen_onKey (s : TS) (ch : Nat) : TS × Bool :=
  if ch = 102 ∨ ch = KEY_F 8 then
    let f := !s.follow
    ({ s with follow := f,
              selected := if f = true then s.display.length - 1 else s.selected },
     true)
  else if ch = 116 ∨ ch = KEY_F 9 then
    ({ s with tracing := !s.tracing }, true)
  else
    ({ s with follow := false }, false)

/-- TraceScreen_delete (lines 48-63): when child > 0, SIGTERM it and
block in waitpid until reaped; when the strace handle is non-NULL,
fclose it.  The session fields themselves are never reset. -/
def TraceScreen_delete (s : TS) : TS × List Action :=
  ((s : TS),
   (if s.child > 0 then [Action.kill s.child, Action.wait s.child] else []) ++
   (if s.strace = true then [Action.fclose] else []))

/-- Outcomes of the system calls made by TraceScreen_forkTracer: whether
pipe, each fcntl, fork and fdopen succeed, and the child pid fork
returns on success. -/
structure ForkEnv where
  pipeOk : Bool
  fcntl0Ok : Bool
  fcntl1Ok : Bool
  forkOk : Bool
  childPid : Int
  fdopenOk : Bool
deriving DecidableEq

/-- Result of a launch attempt: the session state afterwards, the
boolean the function returns, and the trace of actions performed. -/
structure ForkResult where
  session : TS
  ok : Bool
  actions : List Action
deriving DecidableEq

/-- TraceScreen_forkTracer (lines 69-133).  pipe failure returns false
with nothing created; an fcntl or fork failure reaches the err label,
which closes the write end then the read end; an fdopen failure after a
successful fork also reaches err, closing both ends, but the already
spawned child is neither killed nor reaped; on success the write end is
closed and child, strace and strace_alive are set. -/
def TraceScreen_forkTracer (s : TS) (env : ForkEnv) : ForkResult :=
  if env.pipeOk = false then
    { session := s, ok := false, actions := [] }
  else if env.fcntl0Ok = false then
    { session := s, ok := false, actions := [Action.closeWrite, Action.closeRead] }
  else if env.fcntl1Ok = false then
    { session := s, ok := false, actions := [Action.closeWrite, Action.closeRead] }
  else if env.forkOk = false then
    { session := s, ok := false, actions := [Action.closeWrite, Action.closeRead] }
  else if env.fdopenOk = false then
    { session := s, ok := false,
      actions := [Action.spawn env.childPid, Action.closeWrite, Action.closeRead] }
  else
    { session := { s with child := env.childPid, strace := true, strace_alive := true },
      ok := true,
      actions := [Action.spawn env.childPid, Action.closeWrite] }

/-- Events the screen reacts to: a multiplexer tick (with the bytes the
channel would deliver and the waitpid exit report) or a key press. -/
inductive Ev where
  | tick : List Byte → Bool → Ev
  | key : Nat → Ev
deriving DecidableEq

/-- One event step. -/
def stepEv (s : TS) : Ev → TS
  | Ev.tick chunk exited => TraceScreen_updateTrace s chunk exited
  | Ev.key ch => (TraceScreen_onKey s ch).1

/-- A run of the screen over a sequence of events. -/
def runEvs (s : TS) (evs : List Ev) : TS := evs.foldl stepEv s

/-- A run of the bare reassembler over a sequence of chunks, starting
from a given contLine flag and display. -/
def runChunks (chunks : List (List Byte)) (st : Bool × List (List Byte)) :
    Bool × List (List Byte) :=
  chunks.foldl (fun st ch => processChunk ch st.1 st.2) st

/-- Reference semantics of splitting a byte stream on terminators: the
accumulator holds the completed lines so far and the bytes of the
current unfinished line. -/
def step10 (acc : List (List Byte) × List Byte) (b : Byte) :
    List (List Byte) × List Byte :=
  if b = 10 then (acc.1 ++ [acc.2], []) else (acc.1, acc.2 ++ [b])

/-- Fold the reference splitter over a byte stream from a given
accumulator. -/
def splitAcc (acc : List (List Byte) × List Byte) (t : List Byte) :
    List (List Byte) × List Byte :=
  t.foldl step10 acc

/-- Reference splitting of a whole byte stream from scratch: completed
lines, and the trailing bytes after the last terminator. -/
def splitText (t : List Byte) : List (List Byte) × List Byte :=
  splitAcc ([], []) t

/-- The reassembler state a reference accumulator corresponds to: no
pending continuation when the current line is empty, otherwise the
unfinished line sits as the last display entry with contLine set. -/
def mkRef (acc : List (List Byte) × List Byte) : Bool × List (List Byte) :=
  if acc.2 = [] then (false, acc.1) else (true, acc.1 ++ [acc.2])

/-- A chunking is well-formed for the reassembler when no chunk that
arrives while a line is unfinished lacks a terminator: whenever the
stream so far ends mid-line, the next nonempty chunk contains byte 10
(equivalently, no line spans more than two chunks). -/
def goodAcc : List (List Byte) × List Byte → List (List Byte) → Bool
  | _, [] => true
  | acc, ch :: rest =>
    (decide (acc.2 = []) || decide (ch = []) || decide ((10 : Byte) ∈ ch)) &&
      goodAcc (splitAcc acc ch) rest

/-- The reference accumulator the loop is working relative to, given the
flag, the display and the bytes of the current segment: with contLine
set, the unfinished last display entry plus the segment form the current
line; otherwise the segment alone does. -/
def preAcc (c : Bool) (d : List (List Byte)) (cur : List Byte) :
    List (List Byte) × List Byte :=
  if c then (d.dropLast, (d.getLast?.getD []) ++ cur) else (d, cur)

end TraceScreen

namespace TraceScreen

/-! ## Helper lemmas about the reassembly loop -/

theorem cstr_eq_self : ∀ (l : List Byte), (0 : Byte) ∉ l → cstr l = l := by
  intro l h
  simp [cstr]
  intro x hx hx0
  exact h (hx0 ▸ hx)

theorem emit_preAcc (c : Bool) (d : List (List Byte)) (cur : List Byte)
    (h : (0 : Byte) ∉ cur) :
    emit c d (cstr cur) = (preAcc c d cur).1 ++ [(preAcc c d cur).2] := by
  cases c with
  | false => simp [emit, preAcc, InfoScreen_addLine, cstr_eq_self cur h]
  | true => simp [emit, preAcc, InfoScreen_appendLine, cstr_eq_self cur h]

theorem preAcc_snoc (c : Bool) (d : List (List Byte)) (cur : List Byte) (b : Byte)
    (hb : b ≠ 10) :
    preAcc c d (cur ++ [b]) = step10 (preAcc c d cur) b := by
  cases c with
  | false => simp [preAcc, step10, hb]
  | true => simp [preAcc, step10, hb]

theorem procLoop_eq (bs : List Byte) : ∀ (cur : List Byte) (c : Bool)
    (d : List (List Byte)), (0 : Byte) ∉ bs → (0 : Byte) ∉ cur →
    (c = true → (10 : Byte) ∈ bs) →
    procLoop bs cur c d = mkRef (splitAcc (preAcc c d cur) bs) := by
  induction bs with
  | nil =>
    intro cur c d _ hcur hc
    cases c with
    | true => exact absurd (hc rfl) (List.not_mem_nil _)
    | false =>
      by_cases h : cur = []
      · subst h; simp [procLoop, splitAcc, preAcc, mkRef]
      · simp [procLoop, splitAcc, preAcc, mkRef, h, InfoScreen_addLine,
              cstr_eq_self cur hcur]
  | cons b bs2 ih =>
    intro cur c d hbs hcur hc
    have hb0 : b ≠ 0 := fun hb => hbs (hb ▸ List.mem_cons_self b bs2)
    have hbs2 : (0 : Byte) ∉ bs2 := fun hm => hbs (List.mem_cons_of_mem b hm)
    by_cases hb : b = 10
    · subst hb
      have hstep : splitAcc (preAcc c d cur) (10 :: bs2)
          = splitAcc ((preAcc c d cur).1 ++ [(preAcc c d cur).2], []) bs2 := by
        simp [splitAcc, List.foldl_cons, step10]
      rw [hstep]
      have := ih [] false (emit c d (cstr cur)) hbs2 (List.not_mem_nil _)
        (by intro h; exact absurd h (by simp))
      simp only [procLoop, if_pos rfl]
      rw [this, emit_preAcc c d cur hcur]
      rfl
    · have hsnoc : (0 : Byte) ∉ cur ++ [b] := by
        intro hm
        rcases List.mem_append.mp hm with h1 | h1
        · exact hcur h1
        · exact hb0 (List.mem_singleton.mp h1).symm
      have hc2 : c = true → (10 : Byte) ∈ bs2 := by
        intro h
        rcases List.mem_cons.mp (hc h) with h1 | h1
        · exact absurd h1.symm hb
        · exact h1
      have hstep : splitAcc (preAcc c d cur) (b :: bs2)
          = splitAcc (preAcc c d (cur ++ [b])) bs2 := by
        simp [splitAcc, List.foldl_cons, preAcc_snoc c d cur b hb]
      rw [hstep]
      simp only [procLoop, if_neg hb]
      exact ih (cur ++ [b]) c d hbs2 hsnoc hc2

end TraceScreen

namespace TraceScreen

theorem processChunk_eq (ch : List Byte) (ls : List (List Byte)) (r : List Byte)
    (h0 : (0 : Byte) ∉ ch) (hg : r = [] ∨ ch = [] ∨ (10 : Byte) ∈ ch) :
    processChunk ch (mkRef (ls, r)).1 (mkRef (ls, r)).2 = mkRef (splitAcc (ls, r) ch) := by
  by_cases hch : ch = []
  · subst hch
    by_cases hr : r = [] <;>
      simp [processChunk, procLoop, splitAcc, mkRef, hr]
  · by_cases hr : r = []
    · subst hr
      have h := procLoop_eq ch [] false ls h0 (List.not_mem_nil _) (by intro hx; simp at hx)
      have hpre : preAcc false ls ([] : List Byte) = (ls, ([] : List Byte)) := rfl
      rw [hpre] at h
      have hm : mkRef (ls, ([] : List Byte)) = (false, ls) := by simp [mkRef]
      rw [hm]
      exact h
    · have h10 : (10 : Byte) ∈ ch := by
        rcases hg with h | h | h
        · exact absurd h hr
        · exact absurd h hch
        · exact h
      have h := procLoop_eq ch [] true (ls ++ [r]) h0 (List.not_mem_nil _) (fun _ => h10)
      have hpre : preAcc true (ls ++ [r]) ([] : List Byte) = (ls, r) := by
        simp [preAcc, List.dropLast_concat, List.getLast?_concat]
      rw [hpre] at h
      have hm : mkRef (ls, r) = (true, ls ++ [r]) := by simp [mkRef, hr]
      rw [hm]
      exact h

theorem runChunks_eq : ∀ (chunks : List (List Byte)) (ls : List (List Byte))
    (r : List Byte), (∀ ch ∈ chunks, (0 : Byte) ∉ ch) →
    goodAcc (ls, r) chunks = true →
    runChunks chunks (mkRef (ls, r)) = mkRef (splitAcc (ls, r) chunks.flatten) := by
  intro chunks
  induction chunks with
  | nil =>
    intro ls r _ _
    simp [runChunks, splitAcc, mkRef]
  | cons ch rest ih =>
    intro ls r h0 hg
    have h0ch : (0 : Byte) ∉ ch := h0 ch (List.mem_cons_self ch rest)
    have h0rest : ∀ c2 ∈ rest, (0 : Byte) ∉ c2 :=
      fun c2 hm => h0 c2 (List.mem_cons_of_mem ch hm)
    rw [goodAcc] at hg
    rcases Bool.and_eq_true_iff.mp hg with ⟨hg1, hg2⟩
    have hcond : r = [] ∨ ch = [] ∨ (10 : Byte) ∈ ch := by
      rcases Bool.or_eq_true_iff.mp hg1 with h | h
      · rcases Bool.or_eq_true_iff.mp h with h1 | h1
        · exact Or.inl (of_decide_eq_true h1)
        · exact Or.inr (Or.inl (of_decide_eq_true h1))
      · exact Or.inr (Or.inr (of_decide_eq_true h))
    have hstep : runChunks (ch :: rest) (mkRef (ls, r))
        = runChunks rest (processChunk ch (mkRef (ls, r)).1 (mkRef (ls, r)).2) := by
      simp [runChunks, List.foldl_cons]
    rw [hstep, processChunk_eq ch ls r h0ch hcond]
    rcases hsa : splitAcc (ls, r) ch with ⟨ls2, r2⟩
    rw [hsa] at hg2
    have := ih ls2 r2 h0rest hg2
    rw [this]
    have : splitAcc (ls, r) (ch :: rest).flatten = splitAcc (ls2, r2) rest.flatten := by
      rw [List.flatten_cons, splitAcc, List.foldl_append, ← splitAcc, ← splitAcc, hsa]
    rw [this]

end TraceScreen

namespace TraceScreen

/-! ## Helper lemmas about ticks and runs -/

theorem tick_frozen_off (s : TS) (avail : List Byte) (exited : Bool)
    (h : s.tracing = false) :
    (TraceScreen_updateTrace s avail exited).tracing = false ∧
    (TraceScreen_updateTrace s avail exited).display = s.display ∧
    (TraceScreen_updateTrace s avail exited).contLine = s.contLine := by
  by_cases ha : s.strace_alive = true ∧ exited = true <;>
    simp [TraceScreen_updateTrace, updateTraceRead, h, ha]

theorem runTicks_frozen_off : ∀ (ticks : List (List Byte × Bool)) (s : TS),
    s.tracing = false →
    (runEvs s (ticks.map fun p => Ev.tick p.1 p.2)).tracing = false ∧
    (runEvs s (ticks.map fun p => Ev.tick p.1 p.2)).display = s.display ∧
    (runEvs s (ticks.map fun p => Ev.tick p.1 p.2)).contLine = s.contLine := by
  intro ticks
  induction ticks with
  | nil => intro s h; simp [runEvs]; exact h
  | cons p rest ih =>
    intro s h
    have hstep : runEvs s ((p :: rest).map fun p => Ev.tick p.1 p.2)
        = runEvs (TraceScreen_updateTrace s p.1 p.2) (rest.map fun p => Ev.tick p.1 p.2) := by
      simp [runEvs, List.foldl_cons, stepEv]
    rcases tick_frozen_off s p.1 p.2 h with ⟨h1, h2, h3⟩
    rcases ih (TraceScreen_updateTrace s p.1 p.2) h1 with ⟨g1, g2, g3⟩
    exact ⟨by rw [hstep]; exact g1, by rw [hstep, g2, h2], by rw [hstep, g3, h3]⟩

theorem tick_on (s : TS) (ch : List Byte) (ht : s.tracing = true)
    (ha : s.strace_alive = true) :
    (TraceScreen_updateTrace s ch false).tracing = true ∧
    (TraceScreen_updateTrace s ch false).strace_alive = true ∧
    ((TraceScreen_updateTrace s ch false).contLine,
     (TraceScreen_updateTrace s ch false).display)
      = processChunk ch s.contLine s.display := by
  by_cases hch : ch = []
  · subst hch
    simp [TraceScreen_updateTrace, updateTraceRead, ht, ha, processChunk, procLoop]
  · simp [TraceScreen_updateTrace, updateTraceRead, ht, ha, hch]

theorem runTicks_on : ∀ (chunks : List (List Byte)) (s : TS),
    s.tracing = true → s.strace_alive = true →
    (runEvs s (chunks.map fun c => Ev.tick c false)).tracing = true ∧
    (runEvs s (chunks.map fun c => Ev.tick c false)).strace_alive = true ∧
    ((runEvs s (chunks.map fun c => Ev.tick c false)).contLine,
     (runEvs s (chunks.map fun c => Ev.tick c false)).display)
      = runChunks chunks (s.contLine, s.display) := by
  intro chunks
  induction chunks with
  | nil =>
    intro s ht ha
    refine ⟨by simpa [runEvs] using ht, by simpa [runEvs] using ha, ?_⟩
    simp [runEvs, runChunks]
  | cons ch rest ih =>
    intro s ht ha
    have hstep : runEvs s ((ch :: rest).map fun c => Ev.tick c false)
        = runEvs (TraceScreen_updateTrace s ch false) (rest.map fun c => Ev.tick c false) := by
      simp [runEvs, List.foldl_cons, stepEv]
    rcases tick_on s ch ht ha with ⟨h1, h2, h3⟩
    rcases ih (TraceScreen_updateTrace s ch false) h1 h2 with ⟨g1, g2, g3⟩
    refine ⟨by rw [hstep]; exact g1, by rw [hstep]; exact g2, ?_⟩
    have hrc : runChunks (ch :: rest) (s.contLine, s.display)
        = runChunks rest (processChunk ch s.contLine s.display) := by
      simp [runChunks, List.foldl_cons]
    rw [hstep, hrc, ← h3]
    exact g3

/-! ## Helper lemmas about the alive flag -/

theorem step_alive_false (s : TS) (ev : Ev) (h : s.strace_alive = false) :
    (stepEv s ev).strace_alive = false := by
  cases ev with
  | tick chunk exited =>
    simp [stepEv, TraceScreen_updateTrace, updateTraceRead, h]
  | key ch =>
    by_cases h1 : ch = 102 ∨ ch = KEY_F 8
    · simp [stepEv, TraceScreen_onKey, h1, h]
    · by_cases h2 : ch = 116 ∨ ch = KEY_F 9 <;>
        simp [stepEv, TraceScreen_onKey, h1, h2, h]

theorem runEvs_alive_false : ∀ (evs : List Ev) (s : TS), s.strace_alive = false →
    (runEvs s evs).strace_alive = false := by
  intro evs
  induction evs with
  | nil => intro s h; simpa [runEvs] using h
  | cons ev rest ih =>
    intro s h
    have hstep : runEvs s (ev :: rest) = runEvs (stepEv s ev) rest := by
      simp [runEvs, List.foldl_cons]
    rw [hstep]
    exact ih (stepEv s ev) (step_alive_false s ev h)

theorem tick_drain_alive (s : TS) : (stepEv s (Ev.tick [] true)).strace_alive = false := by
  by_cases h : s.strace_alive = true <;>
    simp [stepEv, TraceScreen_updateTrace, updateTraceRead, h]

end TraceScreen

namespace TraceScreen

/-! ## Claims -/

/-- Claim C1, counterexample.  The claim asserts that for every chunking
whose concatenation is a terminator-delimited reference text, the final
display equals exactly the reference lines.  Concretely: with tracing
enabled and the session alive throughout, feeding the chunks [97], [98],
[10] (text "ab\n", one line "ab" spanning three chunks) produces the
display [[97], [98]], not the single reference line [97, 98]: the
trailing unterminated segment of a chunk is always added as a new entry
(TraceScreen.c line 172) even when a continuation is pending. -/
theorem C1_counterexample :
    (runEvs { TraceScreen_new with child := 1, strace := true, strace_alive := true }
      [Ev.tick [97] false, Ev.tick [98] false, Ev.tick [10] false]).display
      = [[97], [98]] ∧
    (splitText ([[97], [98], [10]] : List (List Byte)).flatten).2 = [] ∧
    (splitText ([[97], [98], [10]] : List (List Byte)).flatten).1 = [[97, 98]] ∧
    (runEvs { TraceScreen_new with child := 1, strace := true, strace_alive := true }
      [Ev.tick [97] false, Ev.tick [98] false, Ev.tick [10] false]).display
      ≠ [[97, 98]] := by
  refine ⟨by decide, by decide, by decide, by decide⟩

/-- Claim C1, amended: the reassembler reproduces the reference lines
exactly provided the chunks contain no NUL bytes (segments are read as C
strings) and no chunk that arrives while a line is pending lacks a
terminator (equivalently, no line spans more than two chunks); under
those conditions, for any chunking whose concatenation ends at a line
boundary, the final display is exactly the reference lines and no
continuation is pending. -/
theorem C1_amended (chunks : List (List Byte))
    (h0 : ∀ ch ∈ chunks, (0 : Byte) ∉ ch)
    (hg : goodAcc ([], []) chunks = true)
    (hend : (splitText chunks.flatten).2 = []) :
    runChunks chunks (false, []) = (false, (splitText chunks.flatten).1) := by
  have h := runChunks_eq chunks [] [] h0 hg
  have h1 : mkRef ([], ([] : List Byte)) = ((false : Bool), ([] : List (List Byte))) := by
    simp [mkRef]
  rw [h1] at h
  rw [h]
  show mkRef (splitText chunks.flatten) = _
  simp [mkRef, hend]

theorem C1_amended_witness :
    runChunks [[97], [98, 10]] (false, [])
      = (false, (splitText ([[97], [98, 10]] : List (List Byte)).flatten).1) :=
  C1_amended [[97], [98, 10]] (by decide) (by decide) (by decide)

/-- Claim C2: on a tick in the paused state (tracingEnabled false) the
display is unchanged no matter what bytes are available on the channel,
and when the child has exited, the tick still transitions the alive flag
to false. -/
theorem C2_paused_tick (s : TS) (avail : List Byte) (exited : Bool)
    (h : s.tracing = false) :
    (TraceScreen_updateTrace s avail exited).display = s.display ∧
    (s.strace_alive = true → exited = true →
      (TraceScreen_updateTrace s avail exited).strace_alive = false) := by
  constructor
  · exact (tick_frozen_off s avail exited h).2.1
  · intro ha hx
    simp [TraceScreen_updateTrace, updateTraceRead, h, ha, hx]

theorem C2_paused_tick_witness :
    (TraceScreen_updateTrace
        { TraceScreen_new with tracing := false, child := 1, strace := true,
                               strace_alive := true }
        [97, 98, 10] true).display = [] ∧
    (TraceScreen_updateTrace
        { TraceScreen_new with tracing := false, child := 1, strace := true,
                               strace_alive := true }
        [97, 98, 10] true).strace_alive = false := by
  have h := C2_paused_tick
    { TraceScreen_new with tracing := false, child := 1, strace := true,
                           strace_alive := true }
    [97, 98, 10] true (by decide)
  exact ⟨h.1, h.2 (by decide) (by decide)⟩

/-- Claim C3, counterexample.  The claim asserts that after toggling
tracing off and back on, no entry at the boundary is corrupted: no
post-resume text merged into a pre-pause entry.  Concretely: tick
delivering [97, 98] (unterminated, entry "ab" pending), key 116 pauses,
tick delivering [99, 100, 10] is drained and discarded, key 116
resumes, tick delivering the complete line [101, 102, 10]: because
contLine was never reset, the post-resume segment "ef" is appended to
the stale pre-pause entry, yielding the single corrupt entry
[97, 98, 101, 102]; the complete line [101, 102] delivered after resume
is not reconstructed as a display entry. -/
theorem C3_counterexample :
    (runEvs { TraceScreen_new with child := 1, strace := true, strace_alive := true }
      [Ev.tick [97, 98] false, Ev.key 116, Ev.tick [99, 100, 10] false,
       Ev.key 116, Ev.tick [101, 102, 10] false]).display
      = [[97, 98, 101, 102]] ∧
    [101, 102] ∉
      (runEvs { TraceScreen_new with child := 1, strace := true, strace_alive := true }
        [Ev.tick [97, 98] false, Ev.key 116, Ev.tick [99, 100, 10] false,
         Ev.key 116, Ev.tick [101, 102, 10] false]).display := by
  refine ⟨by decide, by decide⟩

/-- Claim C3, amended: during the off period no display entry is
appended or extended regardless of arriving data, and after toggling
back on, exact line reconstruction resumes provided no continuation was
pending at the moment of pause (the last pre-pause entry was complete);
when a continuation is pending at the pause, the first post-resume
segment is appended to the stale pre-pause entry instead.  Stated for a
paused state s with no pending continuation: any off-period ticks leave
the display unchanged, and after the resume key (116), feeding NUL-free
well-chunked data reconstructs exactly the terminator-delimited lines of
the concatenation, appended after the existing entries. -/
theorem C3_amended (s : TS) (offTicks : List (List Byte × Bool))
    (chunks : List (List Byte))
    (hoff : s.tracing = false) (hcont : s.contLine = false)
    (h0 : ∀ ch ∈ chunks, (0 : Byte) ∉ ch)
    (hg : goodAcc (s.display, []) chunks = true)
    (halive : (runEvs s (offTicks.map fun p => Ev.tick p.1 p.2)).strace_alive = true) :
    (runEvs s (offTicks.map fun p => Ev.tick p.1 p.2)).display = s.display ∧
    ((runEvs ((TraceScreen_onKey
          (runEvs s (offTicks.map fun p => Ev.tick p.1 p.2)) 116).1)
        (chunks.map fun c => Ev.tick c false)).contLine,
     (runEvs ((TraceScreen_onKey
          (runEvs s (offTicks.map fun p => Ev.tick p.1 p.2)) 116).1)
        (chunks.map fun c => Ev.tick c false)).display)
      = mkRef (splitAcc (s.display, []) chunks.flatten) := by
  rcases runTicks_frozen_off offTicks s hoff with ⟨f1, f2, f3⟩
  refine ⟨f2, ?_⟩
  have hk : TraceScreen_onKey (runEvs s (offTicks.map fun p => Ev.tick p.1 p.2)) 116
      = ({ runEvs s (offTicks.map fun p => Ev.tick p.1 p.2) with
           tracing := !(runEvs s (offTicks.map fun p => Ev.tick p.1 p.2)).tracing },
         true) := by
    simp [TraceScreen_onKey, KEY_F]
  rw [hk]
  have ht2 : ({ runEvs s (offTicks.map fun p => Ev.tick p.1 p.2) with
      tracing := !(runEvs s (offTicks.map fun p => Ev.tick p.1 p.2)).tracing } : TS).tracing
      = true := by
    simp [f1]
  rcases runTicks_on chunks _ ht2 (by simpa using halive) with ⟨_, _, g3⟩
  rw [g3]
  have hcd : (({ runEvs s (offTicks.map fun p => Ev.tick p.1 p.2) with
      tracing := !(runEvs s (offTicks.map fun p => Ev.tick p.1 p.2)).tracing } : TS).contLine,
      ({ runEvs s (offTicks.map fun p => Ev.tick p.1 p.2) with
      tracing := !(runEvs s (offTicks.map fun p => Ev.tick p.1 p.2)).tracing } : TS).display)
      = ((false : Bool), s.display) := by
    simp [f3, f2, hcont]
  rw [hcd]
  have hmk : ((false : Bool), s.display) = mkRef (s.display, ([] : List Byte)) := by
    simp [mkRef]
  rw [hmk]
  exact runChunks_eq chunks s.display [] h0 hg

theorem C3_amended_witness :
    (runEvs { TraceScreen_new with tracing := false, child := 1, strace := true,
                                   strace_alive := true }
      ([([99, 100, 10], false)].map fun p => Ev.tick p.1 p.2)).display
      = ({ TraceScreen_new with tracing := false, child := 1, strace := true,
                                strace_alive := true } : TS).display ∧
    ((runEvs ((TraceScreen_onKey
          (runEvs { TraceScreen_new with tracing := false, child := 1, strace := true,
                                         strace_alive := true }
            ([([99, 100, 10], false)].map fun p => Ev.tick p.1 p.2)) 116).1)
        ([[101, 102, 10]].map fun c => Ev.tick c false)).contLine,
     (runEvs ((TraceScreen_onKey
          (runEvs { TraceScreen_new with tracing := false, child := 1, strace := true,
                                         strace_alive := true }
            ([([99, 100, 10], false)].map fun p => Ev.tick p.1 p.2)) 116).1)
        ([[101, 102, 10]].map fun c => Ev.tick c false)).display)
      = mkRef (splitAcc
          (({ TraceScreen_new with tracing := false, child := 1, strace := true,
                                   strace_alive := true } : TS).display, [])
          ([[101, 102, 10]] : List (List Byte)).flatten) :=
  C3_amended
    { TraceScreen_new with tracing := false, child := 1, strace := true,
                           strace_alive := true }
    [([99, 100, 10], false)] [[101, 102, 10]]
    (by decide) (by decide) (by decide) (by decide) (by decide)

end TraceScreen

namespace TraceScreen

/-- Claim C4, counterexample.  The claim asserts that every failing
launch retains no state and in particular leaves no spawned tracer
process behind.  Concretely: when pipe, both fcntl calls and fork all
succeed but fdopen fails, the function returns failure after having
spawned child 42, and its action trace contains no kill and no wait of
that child: the spawned tracer process remains. -/
theorem C4_counterexample :
    (TraceScreen_forkTracer TraceScreen_new
      { pipeOk := true, fcntl0Ok := true, fcntl1Ok := true, forkOk := true,
        childPid := 42, fdopenOk := false }).ok = false ∧
    Action.spawn 42 ∈ (TraceScreen_forkTracer TraceScreen_new
      { pipeOk := true, fcntl0Ok := true, fcntl1Ok := true, forkOk := true,
        childPid := 42, fdopenOk := false }).actions ∧
    Action.kill 42 ∉ (TraceScreen_forkTracer TraceScreen_new
      { pipeOk := true, fcntl0Ok := true, fcntl1Ok := true, forkOk := true,
        childPid := 42, fdopenOk := false }).actions ∧
    Action.wait 42 ∉ (TraceScreen_forkTracer TraceScreen_new
      { pipeOk := true, fcntl0Ok := true, fcntl1Ok := true, forkOk := true,
        childPid := 42, fdopenOk := false }).actions := by
  refine ⟨by decide, by decide, by decide, by decide⟩

/-- Claim C4, amended: every failing launch leaves the session fields
unchanged (child identifier, channel handle and alive flag stay unset
when launching from a fresh session), and whenever the channel was
created (pipe succeeded), both of its ends are closed before returning;
however on the fdopen-failure path the already spawned tracer process is
neither killed nor reaped. -/
theorem C4_amended (s : TS) (env : ForkEnv)
    (h : (TraceScreen_forkTracer s env).ok = false) :
    (TraceScreen_forkTracer s env).session = s ∧
    (env.pipeOk = true →
      Action.closeRead ∈ (TraceScreen_forkTracer s env).actions ∧
      Action.closeWrite ∈ (TraceScreen_forkTracer s env).actions) := by
  rcases env with ⟨p, f0, f1, fk, pid, fd⟩
  cases p <;> cases f0 <;> cases f1 <;> cases fk <;> cases fd <;>
    simp_all [TraceScreen_forkTracer]

theorem C4_amended_witness :
    (TraceScreen_forkTracer TraceScreen_new
      { pipeOk := true, fcntl0Ok := false, fcntl1Ok := true, forkOk := true,
        childPid := 5, fdopenOk := true }).session = TraceScreen_new ∧
    (Action.closeRead ∈ (TraceScreen_forkTracer TraceScreen_new
      { pipeOk := true, fcntl0Ok := false, fcntl1Ok := true, forkOk := true,
        childPid := 5, fdopenOk := true }).actions ∧
     Action.closeWrite ∈ (TraceScreen_forkTracer TraceScreen_new
      { pipeOk := true, fcntl0Ok := false, fcntl1Ok := true, forkOk := true,
        childPid := 5, fdopenOk := true }).actions) :=
  ⟨(C4_amended TraceScreen_new
      { pipeOk := true, fcntl0Ok := false, fcntl1Ok := true, forkOk := true,
        childPid := 5, fdopenOk := true } (by decide)).1,
   (C4_amended TraceScreen_new
      { pipeOk := true, fcntl0Ok := false, fcntl1Ok := true, forkOk := true,
        childPid := 5, fdopenOk := true } (by decide)).2 (by decide)⟩

/-- Claim C5, counterexample.  The claim asserts that a second call to
the terminate operation sends no signal, performs no wait and does not
close the channel again.  Concretely: the teardown never resets the
child identifier or the channel handle, so on a session with child 7
and an open handle, the second call signals child 7 again, waits on it
again and closes the channel again. -/
theorem C5_counterexample :
    Action.kill 7 ∈ (TraceScreen_delete
      ((TraceScreen_delete { TraceScreen_new with child := 7, strace := true }).1)).2 ∧
    Action.wait 7 ∈ (TraceScreen_delete
      ((TraceScreen_delete { TraceScreen_new with child := 7, strace := true }).1)).2 ∧
    Action.fclose ∈ (TraceScreen_delete
      ((TraceScreen_delete { TraceScreen_new with child := 7, strace := true }).1)).2 := by
  refine ⟨by decide, by decide, by decide⟩

/-- Claim C5, amended: the teardown leaves the session fields unchanged,
so a second call to it is not a no-op but an exact repetition of the
first: it performs the same signal, wait and close actions and yields
the same state (in the program the call happens exactly once, since the
object is freed afterwards). -/
theorem C5_amended (s : TS) :
    TraceScreen_delete ((TraceScreen_delete s).1) = TraceScreen_delete s := rfl

/-- Claim C6: once the child has exited, the alive flag is observed
false within a bounded number of ticks — concretely, from the first
tick at which the drained channel delivers no bytes and waitpid reports
the exit, the flag is false and every later state keeps it false; and
from any state with the flag already false, no sequence of ticks or key
events ever sets it back to true. -/
theorem C6_lifecycle (s : TS) (evs : List Ev)
    (h : Ev.tick [] true ∈ evs ∨ s.strace_alive = false) :
    (runEvs s evs).strace_alive = false := by
  rcases h with hm | hf
  · induction evs generalizing s with
    | nil => exact absurd hm (List.not_mem_nil _)
    | cons ev rest ih =>
      have hstep : runEvs s (ev :: rest) = runEvs (stepEv s ev) rest := by
        simp [runEvs, List.foldl_cons]
      rw [hstep]
      rcases List.mem_cons.mp hm with he | hm2
      · rw [← he]
        exact runEvs_alive_false rest _ (tick_drain_alive s)
      · exact ih (stepEv s ev) hm2
  · exact runEvs_alive_false evs s hf

theorem C6_lifecycle_witness :
    (runEvs { TraceScreen_new with child := 1, strace := true, strace_alive := true }
      [Ev.tick [97, 10] false, Ev.tick [] true, Ev.key 102,
       Ev.tick [98] false]).strace_alive = false :=
  C6_lifecycle { TraceScreen_new with child := 1, strace := true, strace_alive := true }
    [Ev.tick [97, 10] false, Ev.tick [] true, Ev.key 102, Ev.tick [98] false]
    (Or.inl (by decide))

/-- Claim C7: when followEnabled is true, a tick that appended at least
one display entry leaves the selection on the last entry; and when the
follow-toggle key (f or F8) flips followEnabled to true, the selection
is immediately set to the last display entry. -/
theorem C7_follow (s : TS) (avail : List Byte) (exited : Bool) (k : Nat) :
    (s.follow = true →
      (TraceScreen_updateTrace s avail exited).display.length > s.display.length →
      (TraceScreen_updateTrace s avail exited).selected
        = (TraceScreen_updateTrace s avail exited).display.length - 1) ∧
    ((k = 102 ∨ k = KEY_F 8) → s.follow = false →
      (TraceScreen_onKey s k).1.follow = true ∧
      (TraceScreen_onKey s k).1.selected = s.display.length - 1) := by
  constructor
  · intro hf hlen
    by_cases ha : s.strace_alive = true
    · by_cases hg : avail ≠ [] ∧ s.tracing = true
      · rcases hg with ⟨hg1, hg2⟩
        simp [TraceScreen_updateTrace, updateTraceRead, ha, hg1, hg2, hf]
      · exfalso
        have hdisp : (TraceScreen_updateTrace s avail exited).display = s.display := by
          by_cases hx : exited = true <;>
            simp [TraceScreen_updateTrace, updateTraceRead, ha, hg, hx]
        rw [hdisp] at hlen
        exact lt_irrefl _ hlen
    · exfalso
      have hdisp : (TraceScreen_updateTrace s avail exited).display = s.display := by
        simp [TraceScreen_updateTrace, updateTraceRead, ha]
      rw [hdisp] at hlen
      exact lt_irrefl _ hlen
  · intro hk hf
    simp only [TraceScreen_onKey]
    rw [if_pos hk]
    simp [hf]

theorem C7_follow_witness :
    (TraceScreen_updateTrace
        { TraceScreen_new with follow := true, child := 1, strace := true,
                               strace_alive := true } [97, 10] false).selected
      = (TraceScreen_updateTrace
        { TraceScreen_new with follow := true, child := 1, strace := true,
                               strace_alive := true } [97, 10] false).display.length - 1 ∧
    ((TraceScreen_onKey
        { TraceScreen_new with display := [[97]], child := 1, strace := true,
                               strace_alive := true } 102).1.follow = true ∧
     (TraceScreen_onKey
        { TraceScreen_new with display := [[97]], child := 1, strace := true,
                               strace_alive := true } 102).1.selected
       = ({ TraceScreen_new with display := [[97]], child := 1, strace := true,
                                 strace_alive := true } : TS).display.length - 1) :=
  ⟨(C7_follow
      { TraceScreen_new with follow := true, child := 1, strace := true,
                             strace_alive := true } [97, 10] false 102).1
      (by decide) (by decide),
   (C7_follow
      { TraceScreen_new with display := [[97]], child := 1, strace := true,
                             strace_alive := true } [97, 10] false 102).2
      (Or.inl rfl) (by decide)⟩

/-- Claim C8: a key that is neither the follow toggle (f or F8) nor the
tracing toggle (t or F9) forces followEnabled to false, reports the
event unhandled, and leaves tracingEnabled unchanged. -/
theorem C8_other_keys (s : TS) (k : Nat)
    (h : ¬(k = 102 ∨ k = KEY_F 8 ∨ k = 116 ∨ k = KEY_F 9)) :
    (TraceScreen_onKey s k).2 = false ∧
    (TraceScreen_onKey s k).1.follow = false ∧
    (TraceScreen_onKey s k).1.tracing = s.tracing := by
  push_neg at h
  rcases h with ⟨h1, h2, h3, h4⟩
  simp [TraceScreen_onKey, h1, h2, h3, h4]

theorem C8_other_keys_witness :
    (TraceScreen_onKey TraceScreen_new 27).2 = false ∧
    (TraceScreen_onKey TraceScreen_new 27).1.follow = false ∧
    (TraceScreen_onKey TraceScreen_new 27).1.tracing = TraceScreen_new.tracing :=
  C8_other_keys TraceScreen_new 27 (by decide)

/-- Claim C9: a tick executed while the alive flag is false reads
nothing from the channel (the strace descriptor is not in the select
set, so fread is never reached) and leaves the display and the
continuation flag unchanged. -/
theorem C9_dead_session_tick (s : TS) (avail : List Byte) (exited : Bool)
    (h : s.strace_alive = false) :
    (updateTraceRead s avail exited).2 = [] ∧
    (TraceScreen_updateTrace s avail exited).display = s.display ∧
    (TraceScreen_updateTrace s avail exited).contLine = s.contLine := by
  simp [TraceScreen_updateTrace, updateTraceRead, h]

theorem C9_dead_session_tick_witness :
    (updateTraceRead { TraceScreen_new with child := 1, strace := true }
      [97, 98, 10] true).2 = [] ∧
    (TraceScreen_updateTrace { TraceScreen_new with child := 1, strace := true }
      [97, 98, 10] true).display
      = ({ TraceScreen_new with child := 1, strace := true } : TS).display ∧
    (TraceScreen_updateTrace { TraceScreen_new with child := 1, strace := true }
      [97, 98, 10] true).contLine
      = ({ TraceScreen_new with child := 1, strace := true } : TS).contLine :=
  C9_dead_session_tick { TraceScreen_new with child := 1, strace := true }
    [97, 98, 10] true (by decide)

/-- Claim C10: tearing down a session whose child identifier is unset
(child is at most 0, as after a failed or never attempted launch) sends
no signal to any process — in particular never to process id 0 — and
performs no wait, and any close of the channel happens only when the
channel handle exists. -/
theorem C10_no_child_teardown (s : TS) (h : s.child ≤ 0) :
    (∀ p : Int, Action.kill p ∉ (TraceScreen_delete s).2) ∧
    (∀ p : Int, Action.wait p ∉ (TraceScreen_delete s).2) ∧
    (Action.fclose ∈ (TraceScreen_delete s).2 → s.strace = true) := by
  have hc : ¬s.child > 0 := not_lt.mpr h
  by_cases hs : s.strace = true <;>
    simp [TraceScreen_delete, hc, hs]

theorem C10_no_child_teardown_witness :
    Action.kill 0 ∉ (TraceScreen_delete { TraceScreen_new with strace := true }).2 ∧
    Action.wait 0 ∉ (TraceScreen_delete { TraceScreen_new with strace := true }).2 ∧
    ({ TraceScreen_new with strace := true } : TS).strace = true :=
  ⟨(C10_no_child_teardown { TraceScreen_new with strace := true } (by decide)).1 0,
   (C10_no_child_teardown { TraceScreen_new with strace := true } (by decide)).2.1 0,
   (C10_no_child_teardown { TraceScreen_new with strace := true } (by decide)).2.2
     (by decide)⟩

end TraceScreen
